import Mathlib

/-!
Verification development for the animated-assistant repository.

The definitions below are a shallow embedding of the Rust sources:
  - src/core/agent.rs   (ClippyAgent: respond loop, bounded history, storage)
  - src/gigachat.rs     (GigaChatClient: remote backend with its own history)
  - src/ai/local.rs     (LocalAI: deterministic rule responder)
  - src/ui/chat_bubble.rs (show_talk_cloud_side: panel placement)

Machine floats (f32) are embedded as exact rationals; external collaborators
(network, durable storage, text measurement) are passed in as explicit
function parameters, following their interface contracts.
-/

/-- Chat message, from the Message struct of src/core/agent.rs
(role is a plain string: "user" or "assistant"). -/
structure Message where
  role : String
  content : String
deriving DecidableEq, Repr

/-- Fuel-indexed form of the eviction loop
`while self.conversation_history.len() > 10 { pop_front() }`
(src/core/agent.rs lines 81-83).  One fuel unit per iteration; the loop
can run at most length-many times, so the fuel below is always enough. -/
def trimLoop : Nat → List Message → List Message
  | 0, l => l
  | fuel + 1, l => if 10 < l.length then trimLoop fuel l.tail else l

/-- The eviction loop of src/core/agent.rs lines 81-83: pop from the front
while more than 10 messages are stored. -/
def trimHistory (l : List Message) : List Message :=
  trimLoop l.length l

/-- A single bounded push: push_back followed by the eviction loop.
This is the push operation of the HistoryStore contract as implemented by
the agent (append, then evict oldest while over the bound). -/
def pushBounded (h : List Message) (m : Message) : List Message :=
  trimHistory (h ++ [m])

/-! String primitives used by the Rust sources.  Rust str::contains does a
substring search; String::to_lowercase applies Unicode simple lowercasing;
str::trim strips whitespace at both ends. -/

/-- Tests whether the first list is a leading segment of the second. -/
def leadsList : List Char → List Char → Bool
  | [], _ => true
  | _ :: _, [] => false
  | n :: ns, h :: hs => (n == h) && leadsList ns hs

/-- Substring occurrence test on character lists (Rust str::contains). -/
def containsList (needle : List Char) : List Char → Bool
  | [] => needle.isEmpty
  | h :: hs => leadsList needle (h :: hs) || containsList needle hs

/-- Rust str::contains on strings. -/
def rustContains (hay needle : String) : Bool :=
  containsList needle.data hay.data

/-- Unicode simple lowercasing of one character, restricted to the
alphabets the program uses: ASCII letters and the Russian Cyrillic block
(uppercase U+0410 to U+042F maps to plus 0x20; U+0401 maps to U+0451).
Embeds the per-character behaviour of Rust String::to_lowercase on these
ranges. -/
def rustCharToLower (c : Char) : Char :=
  if 65 ≤ c.toNat ∧ c.toNat ≤ 90 then Char.ofNat (c.toNat + 32)
  else if 0x410 ≤ c.toNat ∧ c.toNat ≤ 0x42F then Char.ofNat (c.toNat + 0x20)
  else if c.toNat = 0x401 then Char.ofNat 0x451
  else c

/-- Rust String::to_lowercase on the ranges above. -/
def rustToLowercase (s : String) : String :=
  ⟨s.data.map rustCharToLower⟩

/-- Rust str::trim: drop whitespace from both ends. -/
def rustTrim (s : String) : String :=
  ⟨((s.data.dropWhile Char.isWhitespace).reverse.dropWhile Char.isWhitespace).reverse⟩

/-- LocalAI::get_response from src/ai/local.rs: lowercase the input, then
first matching keyword category wins; a fixed string per category. -/
def LocalAI_get_response (user_input : String) : String :=
  let input_lower := rustToLowercase user_input
  if rustContains input_lower "привет" || rustContains input_lower "здравствуй" then
    "Привет! Как дела? Чем я могу тебе помочь?"
  else if rustContains input_lower "пока" || rustContains input_lower "до свидания" then
    "До свидания! Удачи тебе!"
  else if rustContains input_lower "помощь" || rustContains input_lower "помоги" then
    "Я могу помочь с:\n• Информацией о погоде\n• Курсами валют\n• Ответами на вопросы\n• Общением и консультациями"
  else if rustContains input_lower "время" || rustContains input_lower "который час" then
    "Пожалуйста, посмотрите время в системе."
  else
    "Интересный вопрос! Для более полного ответа рекомендую подключить GigaChat API. Могу ли я чем-то ещё помочь?"

/-! Embedding of src/gigachat.rs (GigaChatClient) and src/core/agent.rs
(ClippyAgent).  Network and durable storage are external collaborators and
are passed in as functions; f32 configuration values are embedded as
rationals.  Observable actions of a turn are recorded in an event trace:
history operations of the remote client, which backend was invoked, and
logged storage errors. -/

/-- Failure of the remote transport, of the HTTP status, or of payload
decoding (the error cases of src/gigachat.rs lines 93-116). -/
inductive NetErr where
  | transport
  | badStatus (code : Nat) (body : String)
  | decodeFailed
deriving DecidableEq, Repr

/-- Error result of GigaChatClient::get_response: a network-level failure,
or a well-formed response with no choices (src/gigachat.rs line 134). -/
inductive GigaErr where
  | net (e : NetErr)
  | noChoice
deriving DecidableEq, Repr

/-- Message payload of the GigaChat request (src/gigachat.rs). -/
structure GigaChatRequest where
  model : String
  messages : List Message
  temperature : ℚ
  max_tokens : Int
  top_p : ℚ
  n : Int

/-- One choice of the GigaChat response (src/gigachat.rs). -/
structure Choice where
  message : Message
  finish_reason : String

/-- Decoded GigaChat response body (src/gigachat.rs). -/
structure GigaChatResponse where
  choices : List Choice

/-- State of GigaChatClient (src/gigachat.rs lines 6-13). -/
structure GigaChatClient where
  api_key : String
  base_url : String
  model : String
  temperature : ℚ
  max_tokens : Int
  conversation_history : List Message

/-- GigaChatClient::new (src/gigachat.rs lines 52-66). -/
def GigaChatClient.new (api_key : String) (model : Option String)
    (temperature : Option ℚ) (max_tokens : Option Int) : GigaChatClient :=
  { api_key := api_key
    base_url := "https://gigachat.devices.sberbank.ru/api/v1"
    model := model.getD "GigaChat:latest"
    temperature := temperature.getD (7/10)
    max_tokens := max_tokens.getD 200
    conversation_history := [] }

/-- Observable events of a conversational turn. -/
inductive Ev where
  | pushUser        -- user message appended to the client history
  | invokePrimary   -- HTTP request sent to the GigaChat endpoint
  | pushAssistant   -- assistant message appended to the client history
  | invokeSecondary -- the OpenAI fallback branch was taken
  | invokeLocal     -- LocalAI::get_response was called
  | logStorageError -- a durable-storage failure was logged
deriving DecidableEq, Repr

/-- The request GigaChatClient::get_response builds after appending the
user message to its bounded history (src/gigachat.rs lines 70-89). -/
def clientRequest (st : GigaChatClient) (user_input : String) : GigaChatRequest :=
  { model := st.model
    messages := trimHistory (st.conversation_history ++ [⟨"user", user_input⟩])
    temperature := st.temperature
    max_tokens := st.max_tokens
    top_p := 9/10
    n := 1 }

/-- GigaChatClient::get_response (src/gigachat.rs lines 69-136): append the
user message, evict over the bound, send the request; on success append the
first choice to the history (again evicting) and return its content. -/
def clientGetResponse (net : GigaChatRequest → Except NetErr GigaChatResponse)
    (st : GigaChatClient) (user_input : String) :
    Except GigaErr String × GigaChatClient × List Ev :=
  let hist1 := trimHistory (st.conversation_history ++ [⟨"user", user_input⟩])
  let st1 := { st with conversation_history := hist1 }
  match net (clientRequest st user_input) with
  | .error e => (.error (.net e), st1, [.pushUser, .invokePrimary])
  | .ok resp =>
    match resp.choices.head? with
    | none => (.error .noChoice, st1, [.pushUser, .invokePrimary])
    | some choice =>
      let reply := choice.message.content
      let hist2 := trimHistory (hist1 ++ [⟨"assistant", reply⟩])
      (.ok reply, { st with conversation_history := hist2 },
        [.pushUser, .invokePrimary, .pushAssistant])

/-- Configuration fields of src/config.rs consumed by the agent. -/
structure Config where
  gigachat_api_key : Option String
  gigachat_model : String
  gigachat_temperature : ℚ
  gigachat_max_tokens : Int
  use_openai : Bool
  openai_api_key : Option String

/-- Durable-storage collaborator (src/services/storage.rs interface as
used by the agent): save_message role content model, and
clear_session_history; either may fail with an error string. -/
structure Storage where
  save_message : String → String → String → Except String Unit
  clear_session_history : Except String Unit

/-- State of ClippyAgent (src/core/agent.rs lines 14-22); the weather and
currency collaborators are not consulted by any function involved in the
claims and are omitted. -/
structure ClippyAgent where
  config : Config
  conversation_history : List Message
  gigachat_client : Option GigaChatClient
  storage : Option Storage
  current_model : String

/-- ClippyAgent::new (src/core/agent.rs lines 25-61); the storage handle
is the outcome of the SQLiteStorage initialization, passed in. -/
def ClippyAgent.new (config : Config) (storage : Option Storage) : ClippyAgent :=
  { config := config
    conversation_history := []
    gigachat_client := config.gigachat_api_key.bind (fun key =>
      if key = "" then none
      else some (GigaChatClient.new key (some config.gigachat_model)
        (some config.gigachat_temperature) (some config.gigachat_max_tokens)))
    storage := storage
    current_model := "Local" }

/-- The stubbed OpenAI branch of src/core/agent.rs lines 127-130: it
always produces this fixed reply. -/
def get_openai_response (_a : ClippyAgent) (_user_input : String) : String :=
  "OpenAI ещё не интегрирован в эту версию."

/-- The fallthrough of get_ai_response after the GigaChat branch
(src/core/agent.rs lines 114-124): OpenAI if enabled and a key is present,
otherwise the local rules. -/
def openaiOrLocal (a : ClippyAgent) (user_input : String) (evs : List Ev) :
    String × ClippyAgent × List Ev :=
  if a.config.use_openai && a.config.openai_api_key.isSome then
    (get_openai_response a user_input, { a with current_model := "OpenAI" },
      evs ++ [.invokeSecondary])
  else
    (LocalAI_get_response user_input, { a with current_model := "Local" },
      evs ++ [.invokeLocal])

/-- ClippyAgent::get_ai_response (src/core/agent.rs lines 98-125):
GigaChat first when a client exists, then the OpenAI branch, then the
local rules.  The client is borrowed mutably, so its history update
survives a failed call. -/
def get_ai_response (net : GigaChatRequest → Except NetErr GigaChatResponse)
    (a : ClippyAgent) (user_input : String) : String × ClippyAgent × List Ev :=
  match a.gigachat_client with
  | some client =>
    let r := clientGetResponse net client user_input
    match r.1 with
    | .ok response =>
      (response, { a with gigachat_client := some r.2.1, current_model := "GigaChat" },
        r.2.2)
    | .error _ =>
      openaiOrLocal { a with gigachat_client := some r.2.1 } user_input r.2.2
  | none => openaiOrLocal a user_input []

/-- The best-effort durable saves of src/core/agent.rs lines 86-93: both
messages are written when a storage handle exists; a failed write only
produces a log event. -/
def storageEvs (storage : Option Storage) (user_input response model : String) :
    List Ev :=
  match storage with
  | none => []
  | some s =>
    (match s.save_message "user" user_input model with
      | .ok _ => []
      | .error _ => [Ev.logStorageError]) ++
    (match s.save_message "assistant" response model with
      | .ok _ => []
      | .error _ => [Ev.logStorageError])

/-- ClippyAgent::get_response (src/core/agent.rs lines 63-96): empty-trim
guard, backend resolution, append of the user and assistant messages with
eviction, then best-effort durable saves whose failures are only logged. -/
def get_response (net : GigaChatRequest → Except NetErr GigaChatResponse)
    (a : ClippyAgent) (user_input : String) : String × ClippyAgent × List Ev :=
  if rustTrim user_input = "" then ("Чем могу помочь?", a, [])
  else
    let r := get_ai_response net a user_input
    let response := r.1
    let a1 := r.2.1
    let hist2 := trimHistory (a1.conversation_history ++
      [⟨"user", user_input⟩, ⟨"assistant", response⟩])
    let a2 := { a1 with conversation_history := hist2 }
    (response, a2, r.2.2 ++ storageEvs a2.storage user_input response a2.current_model)

/-- ClippyAgent::clear_history (src/core/agent.rs lines 132-145): clear the
in-memory window and the client history; ask storage to delete the session
records, logging a failure. -/
def clear_history (a : ClippyAgent) : ClippyAgent × List Ev :=
  let a1 := { a with
    conversation_history := ([] : List Message)
    gigachat_client := a.gigachat_client.map
      (fun c => { c with conversation_history := ([] : List Message) }) }
  let evs :=
    match a.storage with
    | none => []
    | some s =>
      match s.clear_session_history with
      | .ok _ => []
      | .error _ => [Ev.logStorageError]
  (a1, evs)

/-- ClippyAgent::get_history (src/core/agent.rs lines 147-152). -/
def get_history (a : ClippyAgent) : List (String × String) :=
  a.conversation_history.map (fun m => (m.role, m.content))

/-- Runs a sequence of conversational turns; each turn supplies its input
and the network behaviour observed during it. -/
def runTurns (a : ClippyAgent) :
    List ((GigaChatRequest → Except NetErr GigaChatResponse) × String) → ClippyAgent
  | [] => a
  | (net, input) :: rest => runTurns (get_response net a input).2.1 rest

/-- Keeps only backend-invocation events. -/
def isInvokeEv : Ev → Bool
  | .invokePrimary => true
  | .invokeSecondary => true
  | .invokeLocal => true
  | _ => false

/-- The backend invocations of a trace, in order. -/
def invocations (evs : List Ev) : List Ev :=
  evs.filter isInvokeEv

/-- Checks that a history is a sequence of user-assistant pairs. -/
def pairedB : List Message → Bool
  | [] => true
  | [_] => false
  | u :: x :: rest => (u.role == "user") && (x.role == "assistant") && pairedB rest

/-! Embedding of show_talk_cloud_side (src/ui/chat_bubble.rs lines 7-206).
Screen coordinates (egui f32) are embedded as rationals.  The text
measurement collaborator appears as two parameters: wrap_w_target, the
measured width of max_chars_per_line repeated reference glyphs (lines
20-24), and measure, giving the laid-out text height at a wrap width
(lines 65-67; only the y component of the size is used).  The returned
rectangle is the rectangle the bubble area is drawn at: min position
cloud_min, size vis_size. -/

/-- A point in screen coordinates. -/
structure Pos2 where
  x : ℚ
  y : ℚ
deriving DecidableEq, Repr

/-- An axis-aligned rectangle in screen coordinates (egui Rect). -/
structure Rect where
  min : Pos2
  max : Pos2
deriving DecidableEq, Repr

/-- Center x of a rectangle. -/
def Rect.centerX (r : Rect) : ℚ := (r.min.x + r.max.x) / 2

/-- Center y of a rectangle. -/
def Rect.centerY (r : Rect) : ℚ := (r.min.y + r.max.y) / 2

/-- egui Rect::intersects: closed-interval overlap on both axes. -/
def Rect.intersectsB (a b : Rect) : Bool :=
  decide (a.min.x ≤ b.max.x) && decide (b.min.x ≤ a.max.x) &&
  decide (a.min.y ≤ b.max.y) && decide (b.min.y ≤ a.max.y)

/-- Area of the intersection of two rectangles (zero when they do not
properly overlap). -/
def interArea (a b : Rect) : ℚ :=
  max 0 (min a.max.x b.max.x - max a.min.x b.min.x) *
  max 0 (min a.max.y b.max.y - max a.min.y b.min.y)

/-- Rust f32::clamp(lo, hi). -/
def rustClamp (x lo hi : ℚ) : ℚ :=
  if x < lo then lo else if x > hi then hi else x

/-- Available space left of the image (line 27). -/
def spaceLeft (screen image : Rect) (gap : ℚ) : ℚ :=
  max (image.min.x - screen.min.x - gap) 0

/-- Available space right of the image (line 28). -/
def spaceRight (screen image : Rect) (gap : ℚ) : ℚ :=
  max (screen.max.x - image.max.x - gap) 0

/-- Initial side choice (lines 32-39); min_required_space is 120 + gap. -/
def sideInit (prefer_left : Bool) (sl sr gap : ℚ) : Bool :=
  if prefer_left then
    decide (sl ≥ 120 + gap) && (decide (sl ≥ sr) || decide (sr < 120 + gap))
  else
    decide (sl ≥ 120 + gap) && decide (sl > sr)

/-- Wrap width for a side (lines 42-46). -/
def wrapOf (target sl sr gap : ℚ) (pl : Bool) : ℚ :=
  if pl then rustClamp (sl - gap) 120 target else rustClamp (sr - gap) 120 target

/-- Side and wrap width after the two fallbacks (lines 34-62): flip the
side when the wrap width stays under 120, then force the right side with a
100 floor if still under 120. -/
def sideWrap (prefer_left : Bool) (sl sr gap target : ℚ) : Bool × ℚ :=
  let pl0 := sideInit prefer_left sl sr gap
  let w0 := wrapOf target sl sr gap pl0
  let s1 := if w0 < 120 then (!pl0, wrapOf target sl sr gap (!pl0)) else (pl0, w0)
  if s1.2 < 120 then (false, min (max (sr - gap) 100) target) else s1

/-- Vertical position after centering on the image and clamping into the
screen (lines 78-91): shift down below the top edge, then shift up above
the bottom edge, 5 px inside; the height is never changed. -/
def clampYinit (screen image : Rect) (visH : ℚ) : ℚ :=
  let y0 := Rect.centerY image - visH / 2
  let y1 := if y0 < screen.min.y then screen.min.y + 5 else y0
  if y1 + visH > screen.max.y then screen.max.y - visH - 5 else y1

/-- Horizontal fixups against the image and the screen edges (lines
93-127).  cloudRight is the right edge before any fixup, reused by the
nested test of the left branch exactly as in the source. -/
def fixupX (screen image : Rect) (gap visW : ℚ) (pl : Bool) (x0 : ℚ) : Bool × ℚ :=
  let cloudRight := x0 + visW
  if pl then
    let xA := if cloudRight > image.min.x - gap then image.min.x - gap - visW else x0
    if xA < screen.min.x then
      if cloudRight > image.min.x - gap then (false, image.max.x + gap)
      else (pl, screen.min.x + 5)
    else (pl, xA)
  else
    let xA := if x0 < image.max.x + gap then image.max.x + gap else x0
    if xA + visW > screen.max.x then
      let xB := screen.max.x - visW - 5
      if xB < image.max.x + gap then (true, image.min.x - gap - visW)
      else (pl, xB)
    else (pl, xA)

/-- Final overlap guarantee (lines 129-140): if the candidate rectangle
still intersects the image, flip to the opposite side once. -/
def finalOverlapFix (image : Rect) (gap visW : ℚ) (pl : Bool) (x y visH : ℚ) :
    Bool × ℚ :=
  let rect3 : Rect := ⟨⟨x, y⟩, ⟨x + visW, y + visH⟩⟩
  if rect3.intersectsB image then
    if pl then (false, image.max.x + gap) else (true, image.min.x - gap - visW)
  else (pl, x)

/-- Result of the placement: the bubble rectangle, the chosen side, and
the wrap width used for the text layout. -/
structure CloudResult where
  rect : Rect
  placeLeft : Bool
  wrapW : ℚ
deriving DecidableEq, Repr

/-- show_talk_cloud_side (src/ui/chat_bubble.rs lines 7-206). -/
def show_talk_cloud_side (screen : Rect) (wrap_w_target : ℚ) (measure : ℚ → ℚ)
    (image_rect : Rect) (max_height_px gap : ℚ) (prefer_left : Bool) : CloudResult :=
  let sl := spaceLeft screen image_rect gap
  let sr := spaceRight screen image_rect gap
  let sw := sideWrap prefer_left sl sr gap wrap_w_target
  let wrap_w := sw.2
  let text_h := measure wrap_w
  let pad : ℚ := 12
  let visW := wrap_w + pad * 2
  let visH := min (text_h + pad * 2) (max_height_px + pad * 2)
  let x0 := if sw.1 then image_rect.min.x - gap - visW else image_rect.max.x + gap
  let y2 := clampYinit screen image_rect visH
  let fx := fixupX screen image_rect gap visW sw.1 x0
  let fin := finalOverlapFix image_rect gap visW fx.1 fx.2 y2 visH
  { rect := ⟨⟨fin.2, y2⟩, ⟨fin.2 + visW, y2 + visH⟩⟩
    placeLeft := fin.1
    wrapW := wrap_w }

/-! Claim theorems. -/

theorem trimLoop_eq_drop (fuel : Nat) (l : List Message) (hf : l.length ≤ fuel + 10) :
    trimLoop fuel l = l.drop (l.length - 10) := by
  induction fuel generalizing l with
  | zero =>
    simp only [trimLoop]
    have : l.length - 10 = 0 := by omega
    simp [this]
  | succ n ih =>
    simp only [trimLoop]
    split
    · next h =>
      cases l with
      | nil => simp at h
      | cons a as =>
        have has : as.length ≤ n + 10 := by simp at hf; omega
        have := ih as has
        simp only [List.tail_cons, this, List.length_cons]
        have h1 : a :: as = [a] ++ as := rfl
        have h2 : as.length + 1 - 10 = (as.length - 10) + 1 := by
          simp at h; omega
        rw [h2]
        simp [List.drop_succ_cons]
    · next h =>
      have : l.length - 10 = 0 := by omega
      simp [this]

/-- The eviction loop drops exactly the oldest overflow entries. -/
theorem trimHistory_eq_drop (l : List Message) :
    trimHistory l = l.drop (l.length - 10) := by
  exact trimLoop_eq_drop l.length l (by omega)

theorem trimHistory_length_le (l : List Message) (h : l.length ≤ 12) :
    (trimHistory l).length ≤ 10 := by
  rw [trimHistory_eq_drop]
  simp only [List.length_drop]
  omega

theorem pushBounded_foldl (msgs : List Message) (acc : List Message)
    (hacc : acc.length ≤ 10) :
    msgs.foldl pushBounded acc = (acc ++ msgs).drop (acc.length + msgs.length - 10) := by
  induction msgs generalizing acc with
  | nil =>
    have : acc.length - 10 = 0 := by omega
    simp [this]
  | cons m ms ih =>
    simp only [List.foldl_cons]
    have hlen : (pushBounded acc m).length ≤ 10 := by
      unfold pushBounded
      apply trimHistory_length_le
      simp; omega
    rw [ih (pushBounded acc m) hlen]
    unfold pushBounded
    rw [trimHistory_eq_drop]
    have hl : (acc ++ [m]).length = acc.length + 1 := by simp
    rw [hl]
    have hk : acc.length + 1 - 10 ≤ (acc ++ [m]).length := by simp; omega
    rw [← List.drop_append_of_le_length hk, List.drop_drop]
    have hassoc : (acc ++ [m]) ++ ms = acc ++ m :: ms := by simp
    rw [hassoc]
    congr 1
    simp only [List.length_drop, hl, List.length_cons]
    omega


theorem getLast?_drop_of_lt (l : List Message) (k : Nat) (h : k < l.length) :
    (l.drop k).getLast? = l.getLast? := by
  rw [List.getLast?_eq_getElem?, List.getLast?_eq_getElem?, List.getElem?_drop]
  congr 1
  simp only [List.length_drop]
  omega

/-- C2: pushing any sequence of messages through the bounded push keeps
the history length at min(N, 10), and past the bound the surviving oldest
entry is the (N-10)-th pushed message (zero-indexed): eviction is FIFO. -/
theorem history_bound_fifo (msgs : List Message) :
    (msgs.foldl pushBounded []).length = min msgs.length 10 ∧
    (10 < msgs.length →
      (msgs.foldl pushBounded []).head? = msgs[msgs.length - 10]?) := by
  have h := pushBounded_foldl msgs [] (by simp)
  simp only [List.nil_append, List.length_nil, Nat.zero_add] at h
  refine ⟨?_, ?_⟩
  · rw [h]
    simp only [List.length_drop]
    omega
  · intro hN
    rw [h, List.head?_drop]

/-- Witness for C2 at a concrete 12-message push sequence. -/
theorem history_bound_fifo_witness :
    10 < (List.range 12 |>.map (fun i => Message.mk "user" (toString i))).length ∧
    ((List.range 12 |>.map (fun i => Message.mk "user" (toString i))).foldl
        pushBounded []).length =
      min (List.range 12 |>.map (fun i => Message.mk "user" (toString i))).length 10 ∧
    ((List.range 12 |>.map (fun i => Message.mk "user" (toString i))).foldl
        pushBounded []).head? =
      (List.range 12 |>.map (fun i => Message.mk "user" (toString i)))[
        (List.range 12 |>.map (fun i => Message.mk "user" (toString i))).length - 10]? := by
  refine ⟨by decide, (history_bound_fifo _).1, (history_bound_fifo _).2 (by decide)⟩

/-- C5: the local rule responder factors through lowercasing (inputs with
the same lowercase form get identical replies; in particular the two
concrete spellings of privet), and the first matching category wins in the
fixed order greeting, farewell, help, time, default, each with its fixed
reply string. -/
theorem local_rules_first_match :
    (∀ s t, rustToLowercase s = rustToLowercase t →
      LocalAI_get_response s = LocalAI_get_response t)
    ∧ LocalAI_get_response "Привет!" = LocalAI_get_response "ПРИВЕТ"
    ∧ (∀ s, (rustContains (rustToLowercase s) "привет" ||
          rustContains (rustToLowercase s) "здравствуй") = true →
        LocalAI_get_response s = "Привет! Как дела? Чем я могу тебе помочь?")
    ∧ (∀ s, (rustContains (rustToLowercase s) "привет" ||
          rustContains (rustToLowercase s) "здравствуй") = false →
        (rustContains (rustToLowercase s) "пока" ||
          rustContains (rustToLowercase s) "до свидания") = true →
        LocalAI_get_response s = "До свидания! Удачи тебе!")
    ∧ (∀ s, (rustContains (rustToLowercase s) "привет" ||
          rustContains (rustToLowercase s) "здравствуй") = false →
        (rustContains (rustToLowercase s) "пока" ||
          rustContains (rustToLowercase s) "до свидания") = false →
        (rustContains (rustToLowercase s) "помощь" ||
          rustContains (rustToLowercase s) "помоги") = true →
        LocalAI_get_response s =
          "Я могу помочь с:\n• Информацией о погоде\n• Курсами валют\n• Ответами на вопросы\n• Общением и консультациями")
    ∧ (∀ s, (rustContains (rustToLowercase s) "привет" ||
          rustContains (rustToLowercase s) "здравствуй") = false →
        (rustContains (rustToLowercase s) "пока" ||
          rustContains (rustToLowercase s) "до свидания") = false →
        (rustContains (rustToLowercase s) "помощь" ||
          rustContains (rustToLowercase s) "помоги") = false →
        (rustContains (rustToLowercase s) "время" ||
          rustContains (rustToLowercase s) "который час") = true →
        LocalAI_get_response s = "Пожалуйста, посмотрите время в системе.")
    ∧ (∀ s, (rustContains (rustToLowercase s) "привет" ||
          rustContains (rustToLowercase s) "здравствуй") = false →
        (rustContains (rustToLowercase s) "пока" ||
          rustContains (rustToLowercase s) "до свидания") = false →
        (rustContains (rustToLowercase s) "помощь" ||
          rustContains (rustToLowercase s) "помоги") = false →
        (rustContains (rustToLowercase s) "время" ||
          rustContains (rustToLowercase s) "который час") = false →
        LocalAI_get_response s =
          "Интересный вопрос! Для более полного ответа рекомендую подключить GigaChat API. Могу ли я чем-то ещё помочь?") := by
  refine ⟨?_, by decide, ?_, ?_, ?_, ?_, ?_⟩
  · intro s t h
    simp only [LocalAI_get_response]
    rw [h]
  · intro s h
    simp only [LocalAI_get_response, h, if_true]
  · intro s h1 h2
    simp only [LocalAI_get_response, h1, h2]
    simp
  · intro s h1 h2 h3
    simp only [LocalAI_get_response, h1, h2, h3]
    simp
  · intro s h1 h2 h3 h4
    simp only [LocalAI_get_response, h1, h2, h3, h4]
    simp
  · intro s h1 h2 h3 h4
    simp only [LocalAI_get_response, h1, h2, h3, h4]
    simp

/-- Witness for C5: the factoring component at two spellings with equal
lowercase forms, the help and time categories at concrete matching inputs,
and the default category at a non-matching input. -/
theorem local_rules_first_match_witness :
    rustToLowercase "ПОКА" = rustToLowercase "пока" ∧
    LocalAI_get_response "ПОКА" = LocalAI_get_response "пока" ∧
    LocalAI_get_response "помоги мне" =
      "Я могу помочь с:\n• Информацией о погоде\n• Курсами валют\n• Ответами на вопросы\n• Общением и консультациями" ∧
    LocalAI_get_response "Который час?" = "Пожалуйста, посмотрите время в системе." ∧
    LocalAI_get_response "xyz" =
      "Интересный вопрос! Для более полного ответа рекомендую подключить GigaChat API. Могу ли я чем-то ещё помочь?" := by
  refine ⟨by decide, local_rules_first_match.1 _ _ (by decide),
    local_rules_first_match.2.2.2.2.1 "помоги мне" (by decide) (by decide) (by decide),
    local_rules_first_match.2.2.2.2.2.1 "Который час?" (by decide) (by decide) (by decide)
      (by decide),
    local_rules_first_match.2.2.2.2.2.2 "xyz" (by decide) (by decide) (by decide) (by decide)⟩

/-- C6: an input that trims to empty returns the fixed prompt, leaves the
agent (and so the history) untouched, and produces no events: no backend
invoked, nothing stored. -/
theorem empty_input_short_circuit
    (net : GigaChatRequest → Except NetErr GigaChatResponse)
    (a : ClippyAgent) (user_input : String) (h : rustTrim user_input = "") :
    get_response net a user_input = ("Чем могу помочь?", a, []) := by
  unfold get_response
  simp [h]

/-- Witness for C6 at the all-blank input. -/
theorem empty_input_short_circuit_witness :
    rustTrim "   " = "" ∧
    get_response (fun _ => .error .transport)
        (ClippyAgent.new ⟨none, "GigaChat:latest", 7/10, 200, false, none⟩ none) "   " =
      ("Чем могу помочь?",
        ClippyAgent.new ⟨none, "GigaChat:latest", 7/10, 200, false, none⟩ none, []) :=
  ⟨by decide, empty_input_short_circuit _ _ _ (by decide)⟩

/-! Plumbing lemmas about the backend resolution. -/

theorem clientGetResponse_trace (net : GigaChatRequest → Except NetErr GigaChatResponse)
    (st : GigaChatClient) (input : String) :
    (clientGetResponse net st input).2.2 = [Ev.pushUser, Ev.invokePrimary] ∨
    (clientGetResponse net st input).2.2
      = [Ev.pushUser, Ev.invokePrimary, Ev.pushAssistant] := by
  unfold clientGetResponse
  cases net (clientRequest st input) with
  | error e => simp
  | ok resp => rcases h2 : resp.choices.head? with _ | ch <;> simp [h2]

theorem gar_eq_ok (net : GigaChatRequest → Except NetErr GigaChatResponse)
    (input : String) (a : ClippyAgent) (c : GigaChatClient) (reply : String)
    (hgc : a.gigachat_client = some c)
    (hr : (clientGetResponse net c input).1 = .ok reply) :
    get_ai_response net a input =
      (reply,
        { a with
            gigachat_client := some (clientGetResponse net c input).2.1
            current_model := "GigaChat" },
        (clientGetResponse net c input).2.2) := by
  unfold get_ai_response
  rw [hgc]
  simp only [hr]

theorem gar_eq_err (net : GigaChatRequest → Except NetErr GigaChatResponse)
    (input : String) (a : ClippyAgent) (c : GigaChatClient) (e : GigaErr)
    (hgc : a.gigachat_client = some c)
    (hr : (clientGetResponse net c input).1 = .error e) :
    get_ai_response net a input =
      openaiOrLocal { a with gigachat_client := some (clientGetResponse net c input).2.1 }
        input (clientGetResponse net c input).2.2 := by
  unfold get_ai_response
  rw [hgc]
  simp only [hr]

theorem gar_eq_none (net : GigaChatRequest → Except NetErr GigaChatResponse)
    (input : String) (a : ClippyAgent) (hgc : a.gigachat_client = none) :
    get_ai_response net a input = openaiOrLocal a input [] := by
  unfold get_ai_response
  rw [hgc]

theorem get_ai_response_hist (net : GigaChatRequest → Except NetErr GigaChatResponse)
    (a : ClippyAgent) (input : String) :
    (get_ai_response net a input).2.1.conversation_history = a.conversation_history := by
  cases hgc : a.gigachat_client with
  | none =>
    rw [gar_eq_none net input a hgc]
    unfold openaiOrLocal
    split <;> rfl
  | some c =>
    cases hr : (clientGetResponse net c input).1 with
    | ok v => rw [gar_eq_ok net input a c v hgc hr]
    | error e =>
      rw [gar_eq_err net input a c e hgc hr]
      unfold openaiOrLocal
      split <;> rfl

theorem get_ai_response_storage_same
    (net : GigaChatRequest → Except NetErr GigaChatResponse)
    (a : ClippyAgent) (input : String) :
    (get_ai_response net a input).2.1.storage = a.storage := by
  cases hgc : a.gigachat_client with
  | none =>
    rw [gar_eq_none net input a hgc]
    unfold openaiOrLocal
    split <;> rfl
  | some c =>
    cases hr : (clientGetResponse net c input).1 with
    | ok v => rw [gar_eq_ok net input a c v hgc hr]
    | error e =>
      rw [gar_eq_err net input a c e hgc hr]
      unfold openaiOrLocal
      split <;> rfl

theorem openaiOrLocal_reply (a b : ClippyAgent) (input : String) (evs1 evs2 : List Ev)
    (hcfg : b.config = a.config) :
    (openaiOrLocal b input evs1).1 = (openaiOrLocal a input evs2).1 := by
  by_cases hcond : (a.config.use_openai && a.config.openai_api_key.isSome) = true <;>
    simp [openaiOrLocal, hcfg, hcond, get_openai_response]

theorem gar_reply_congr (net : GigaChatRequest → Except NetErr GigaChatResponse)
    (input : String) (a b : ClippyAgent)
    (hcfg : b.config = a.config) (hgc : b.gigachat_client = a.gigachat_client) :
    (get_ai_response net b input).1 = (get_ai_response net a input).1 := by
  cases h : a.gigachat_client with
  | none =>
    have hb : b.gigachat_client = none := by rw [hgc, h]
    rw [gar_eq_none net input a h, gar_eq_none net input b hb]
    exact openaiOrLocal_reply a b input [] [] hcfg
  | some c =>
    have hb : b.gigachat_client = some c := by rw [hgc, h]
    cases hr : (clientGetResponse net c input).1 with
    | ok v => rw [gar_eq_ok net input b c v hb hr, gar_eq_ok net input a c v h hr]
    | error e =>
      rw [gar_eq_err net input b c e hb hr, gar_eq_err net input a c e h hr]
      exact openaiOrLocal_reply _ _ input _ _ hcfg

theorem get_response_nonempty (net : GigaChatRequest → Except NetErr GigaChatResponse)
    (a : ClippyAgent) (input : String) (h : ¬ rustTrim input = "") :
    get_response net a input =
      ((get_ai_response net a input).1,
       { (get_ai_response net a input).2.1 with
          conversation_history := trimHistory (a.conversation_history ++
            [⟨"user", input⟩, ⟨"assistant", (get_ai_response net a input).1⟩]) },
       (get_ai_response net a input).2.2 ++
         storageEvs a.storage input (get_ai_response net a input).1
           (get_ai_response net a input).2.1.current_model) := by
  unfold get_response
  rw [if_neg h]
  dsimp only
  rw [get_ai_response_hist net a input, get_ai_response_storage_same net a input]

/-- C9: the reply text and the in-memory history of a turn do not depend
on the durable-storage collaborator, and clearing always empties the
in-memory window; a failing save or delete only contributes a log event. -/
theorem storage_failure_isolation :
    (∀ (net : GigaChatRequest → Except NetErr GigaChatResponse)
        (a : ClippyAgent) (input : String) (s1 s2 : Option Storage),
      (get_response net { a with storage := s1 } input).1
        = (get_response net { a with storage := s2 } input).1 ∧
      (get_response net { a with storage := s1 } input).2.1.conversation_history
        = (get_response net { a with storage := s2 } input).2.1.conversation_history)
    ∧ (∀ (a : ClippyAgent) (s1 s2 : Option Storage),
      (clear_history { a with storage := s1 }).1.conversation_history = [] ∧
      (clear_history { a with storage := s1 }).1.conversation_history
        = (clear_history { a with storage := s2 }).1.conversation_history)
    ∧ (∀ (net : GigaChatRequest → Except NetErr GigaChatResponse)
        (a : ClippyAgent) (input : String) (s : Storage) (e : String),
      a.storage = some s → ¬ rustTrim input = "" →
      s.save_message "user" input
          ((get_ai_response net a input).2.1.current_model) = .error e →
      Ev.logStorageError ∈ (get_response net a input).2.2)
    ∧ (∀ (a : ClippyAgent) (s : Storage) (e : String),
      a.storage = some s → s.clear_session_history = .error e →
      (clear_history a).1.conversation_history = [] ∧
      Ev.logStorageError ∈ (clear_history a).2) := by
  refine ⟨?_, ?_, ?_, ?_⟩
  · intro net a input s1 s2
    by_cases he : rustTrim input = ""
    · constructor <;> simp [get_response, he]
    · have e1 := get_response_nonempty net { a with storage := s1 } input he
      have e2 := get_response_nonempty net { a with storage := s2 } input he
      have r1 := gar_reply_congr net input a { a with storage := s1 } rfl rfl
      have r2 := gar_reply_congr net input a { a with storage := s2 } rfl rfl
      rw [e1, e2]
      refine ⟨by rw [r1, r2], ?_⟩
      dsimp only
      rw [r1, r2]
  · intro a s1 s2
    exact ⟨rfl, rfl⟩
  · intro net a input s e hs he hsave
    rw [get_response_nonempty net a input he]
    dsimp only
    rw [hs]
    dsimp only [storageEvs]
    rw [hsave]
    simp
  · intro a s e hs hclear
    refine ⟨rfl, ?_⟩
    unfold clear_history
    rw [hs]
    dsimp only
    rw [hclear]
    dsimp only
    simp

/-- Witness for C9: a storage handle whose writes always fail; the failure
is logged and the reply is still produced. -/
theorem storage_failure_isolation_witness :
    (ClippyAgent.new ⟨none, "GigaChat:latest", 7/10, 200, false, none⟩
        (some ⟨fun _ _ _ => Except.error "db", Except.error "db"⟩)).storage
      = some ⟨fun _ _ _ => Except.error "db", Except.error "db"⟩ ∧
    ¬ rustTrim "привет" = "" ∧
    Ev.logStorageError ∈
      (get_response (fun _ => .error .transport)
        (ClippyAgent.new ⟨none, "GigaChat:latest", 7/10, 200, false, none⟩
          (some ⟨fun _ _ _ => Except.error "db", Except.error "db"⟩)) "привет").2.2 :=
  ⟨rfl, by decide,
    storage_failure_isolation.2.2.1 (fun _ => .error .transport)
      (ClippyAgent.new ⟨none, "GigaChat:latest", 7/10, 200, false, none⟩
        (some ⟨fun _ _ _ => Except.error "db", Except.error "db"⟩))
      "привет" ⟨fun _ _ _ => Except.error "db", Except.error "db"⟩ "db"
      rfl (by decide) rfl⟩

/-! Pairing lemmas for the implicit history-shape invariant. -/

theorem pairedB_even : ∀ l : List Message, pairedB l = true → l.length % 2 = 0
  | [], _ => rfl
  | [_], h => by simp [pairedB] at h
  | _ :: x :: rest, h => by
    simp only [pairedB, Bool.and_eq_true] at h
    have := pairedB_even rest h.2
    simp only [List.length_cons]
    omega

theorem pairedB_append_pair (u x : Message)
    (hu : u.role = "user") (hx : x.role = "assistant") :
    ∀ l : List Message, pairedB l = true → pairedB (l ++ [u, x]) = true
  | [], _ => by simp [pairedB, hu, hx]
  | [_], h => by simp [pairedB] at h
  | y :: z :: rest, h => by
    simp only [pairedB, Bool.and_eq_true] at h
    have ih := pairedB_append_pair u x hu hx rest h.2
    simp only [List.cons_append, pairedB, Bool.and_eq_true]
    exact ⟨⟨h.1.1, h.1.2⟩, ih⟩

theorem pairedB_drop_two (l : List Message) (h : pairedB l = true) :
    pairedB (l.drop 2) = true := by
  match l with
  | [] => simpa using h
  | [_] => simp [pairedB] at h
  | _ :: _ :: rest =>
    simp only [pairedB, Bool.and_eq_true] at h
    simpa using h.2

theorem paired_push_turn (A : List Message) (u x : Message)
    (hu : u.role = "user") (hx : x.role = "assistant")
    (hA : pairedB A = true) (hlen : A.length ≤ 10) :
    pairedB (trimHistory (A ++ [u, x])) = true ∧
    (trimHistory (A ++ [u, x])).length ≤ 10 := by
  rw [trimHistory_eq_drop]
  have heven := pairedB_even A hA
  have hap := pairedB_append_pair u x hu hx A hA
  have hlen2 : (A ++ [u, x]).length = A.length + 2 := by simp
  have hk : (A ++ [u, x]).length - 10 = 0 ∨ (A ++ [u, x]).length - 10 = 2 := by
    rw [hlen2]; omega
  cases hk with
  | inl h0 =>
    rw [h0]
    refine ⟨by simpa using hap, ?_⟩
    simp only [List.drop_zero, hlen2]
    omega
  | inr h2 =>
    rw [h2]
    refine ⟨pairedB_drop_two _ hap, ?_⟩
    simp only [List.length_drop, hlen2]
    omega

/-- C10: from any paired bounded state (so in particular from the empty
start state), every sequence of turns keeps the in-memory history an
even-length list of consecutive user-assistant pairs within the bound;
every non-empty-input turn appends exactly the user message and an
assistant message carrying the returned reply (then evicts), an
empty-trim turn changes nothing, and pairing forces even length. -/
theorem history_paired_invariant :
    (∀ (a : ClippyAgent)
        (turns : List ((GigaChatRequest → Except NetErr GigaChatResponse) × String)),
      pairedB a.conversation_history = true → a.conversation_history.length ≤ 10 →
      pairedB (runTurns a turns).conversation_history = true ∧
      (runTurns a turns).conversation_history.length ≤ 10)
    ∧ (∀ (net : GigaChatRequest → Except NetErr GigaChatResponse)
        (a : ClippyAgent) (input : String), ¬ rustTrim input = "" →
      (get_response net a input).2.1.conversation_history
        = trimHistory (a.conversation_history ++
          [⟨"user", input⟩, ⟨"assistant", (get_response net a input).1⟩]))
    ∧ (∀ (net : GigaChatRequest → Except NetErr GigaChatResponse)
        (a : ClippyAgent) (input : String), rustTrim input = "" →
      (get_response net a input).2.1.conversation_history = a.conversation_history)
    ∧ (∀ l : List Message, pairedB l = true → l.length % 2 = 0) := by
  have hne : ∀ (net : GigaChatRequest → Except NetErr GigaChatResponse)
      (a : ClippyAgent) (input : String), ¬ rustTrim input = "" →
      (get_response net a input).2.1.conversation_history
        = trimHistory (a.conversation_history ++
          [⟨"user", input⟩, ⟨"assistant", (get_response net a input).1⟩]) := by
    intro net a input h
    rw [get_response_nonempty net a input h]
  have hemp : ∀ (net : GigaChatRequest → Except NetErr GigaChatResponse)
      (a : ClippyAgent) (input : String), rustTrim input = "" →
      (get_response net a input).2.1.conversation_history = a.conversation_history := by
    intro net a input h
    simp [get_response, h]
  refine ⟨?_, hne, hemp, pairedB_even⟩
  intro a turns
  induction turns generalizing a with
  | nil => intro h1 h2; exact ⟨h1, h2⟩
  | cons t rest ih =>
    obtain ⟨net, input⟩ := t
    intro h1 h2
    simp only [runTurns]
    apply ih
    · by_cases he : rustTrim input = ""
      · rw [hemp net a input he]; exact h1
      · rw [hne net a input he]
        exact (paired_push_turn a.conversation_history _ _ rfl rfl h1 h2).1
    · by_cases he : rustTrim input = ""
      · rw [hemp net a input he]; exact h2
      · rw [hne net a input he]
        exact (paired_push_turn a.conversation_history _ _ rfl rfl h1 h2).2

/-- Witness for C10: two concrete turns from the empty start state keep
the history paired, and a concrete non-empty turn has the append shape. -/
theorem history_paired_invariant_witness :
    pairedB (ClippyAgent.new ⟨none, "GigaChat:latest", 7/10, 200, false, none⟩
        none).conversation_history = true ∧
    (ClippyAgent.new ⟨none, "GigaChat:latest", 7/10, 200, false, none⟩
        none).conversation_history.length ≤ 10 ∧
    pairedB (runTurns
      (ClippyAgent.new ⟨none, "GigaChat:latest", 7/10, 200, false, none⟩ none)
      [(fun _ => .error .transport, "привет"),
       (fun _ => .error .transport, "пока")]).conversation_history = true :=
  ⟨by decide, by decide,
    (history_paired_invariant.1
      (ClippyAgent.new ⟨none, "GigaChat:latest", 7/10, 200, false, none⟩ none)
      [(fun _ => .error .transport, "привет"),
       (fun _ => .error .transport, "пока")] (by decide) (by decide)).1⟩

/-- C4: within a turn of the remote client, the user message is appended
to the (request-visible) history before the network invocation: the
request always carries the user message as its final entry, the event
trace is push-user then invoke (then push-assistant), and the assistant
message is appended only after a successful reply, carrying exactly the
returned content.  At the agent level, every non-empty turn through a
configured client starts with that push-then-invoke pattern. -/
theorem turn_ordering_user_before_invoke
    (net : GigaChatRequest → Except NetErr GigaChatResponse)
    (st : GigaChatClient) (input : String) :
    (clientRequest st input).messages.getLast? = some ⟨"user", input⟩
    ∧ ((clientGetResponse net st input).2.2 = [Ev.pushUser, Ev.invokePrimary] ∨
       (clientGetResponse net st input).2.2
         = [Ev.pushUser, Ev.invokePrimary, Ev.pushAssistant])
    ∧ (∀ reply, (clientGetResponse net st input).1 = .ok reply →
        (clientGetResponse net st input).2.2
          = [Ev.pushUser, Ev.invokePrimary, Ev.pushAssistant] ∧
        (clientGetResponse net st input).2.1.conversation_history
          = trimHistory ((clientRequest st input).messages ++ [⟨"assistant", reply⟩]))
    ∧ (∀ (a : ClippyAgent) (c : GigaChatClient), ¬ rustTrim input = "" →
        a.gigachat_client = some c →
        ∃ rest, (get_response net a input).2.2
          = Ev.pushUser :: Ev.invokePrimary :: rest) := by
  refine ⟨?_, clientGetResponse_trace net st input, ?_, ?_⟩
  · show (trimHistory (st.conversation_history ++ [⟨"user", input⟩])).getLast?
      = some ⟨"user", input⟩
    rw [trimHistory_eq_drop]
    rw [getLast?_drop_of_lt _ _ (by simp; omega)]
    exact List.getLast?_concat _
  · intro reply hok
    unfold clientGetResponse at hok ⊢
    cases hnet : net (clientRequest st input) with
    | error e => rw [hnet] at hok; simp at hok
    | ok resp =>
      rw [hnet] at hok
      dsimp only at hok ⊢
      cases hch : resp.choices.head? with
      | none => rw [hch] at hok; simp at hok
      | some choice =>
        rw [hch] at hok
        have hok2 : choice.message.content = reply := by simpa using hok
        subst hok2
        exact ⟨rfl, rfl⟩
  · intro a c he hgc
    rw [get_response_nonempty net a input he]
    dsimp only
    cases hr : (clientGetResponse net c input).1 with
    | ok v =>
      rw [gar_eq_ok net input a c v hgc hr]
      dsimp only
      rcases clientGetResponse_trace net c input with ht | ht <;> rw [ht]
      · exact ⟨_, rfl⟩
      · exact ⟨_, rfl⟩
    | error e =>
      rw [gar_eq_err net input a c e hgc hr]
      by_cases hcond : (a.config.use_openai && a.config.openai_api_key.isSome) = true <;>
        simp only [openaiOrLocal, hcond, Bool.false_eq_true, if_true, if_false,
          Bool.not_eq_true] <;>
      rcases clientGetResponse_trace net c input with ht | ht <;>
        simp only [ht] <;> exact ⟨_, rfl⟩

/-- Witness for C4: a concrete successful turn. -/
theorem turn_ordering_witness :
    (clientGetResponse
        (fun _ => .ok ⟨[⟨⟨"assistant", "hi"⟩, "stop"⟩]⟩)
        (GigaChatClient.new "k" none none none) "привет").1 = .ok "hi" ∧
    (clientGetResponse
        (fun _ => .ok ⟨[⟨⟨"assistant", "hi"⟩, "stop"⟩]⟩)
        (GigaChatClient.new "k" none none none) "привет").2.2
      = [Ev.pushUser, Ev.invokePrimary, Ev.pushAssistant] :=
  ⟨rfl,
    ((turn_ordering_user_before_invoke
        (fun _ => .ok ⟨[⟨⟨"assistant", "hi"⟩, "stop"⟩]⟩)
        (GigaChatClient.new "k" none none none) "привет").2.2.1 "hi" rfl).1⟩

theorem invocations_append (l1 l2 : List Ev) :
    invocations (l1 ++ l2) = invocations l1 ++ invocations l2 := by
  simp [invocations]

theorem mem_storageEvs (st : Option Storage) (i r m : String) (e : Ev)
    (h : e ∈ storageEvs st i r m) : e = Ev.logStorageError := by
  unfold storageEvs at h
  cases st with
  | none => simp at h
  | some s =>
    dsimp only at h
    cases h1 : s.save_message "user" i m <;> cases h2 : s.save_message "assistant" r m <;>
      rw [h1, h2] at h <;> simp_all

theorem invocations_storageEvs (st : Option Storage) (i r m : String) :
    invocations (storageEvs st i r m) = [] := by
  unfold storageEvs
  cases st with
  | none => rfl
  | some s =>
    dsimp only
    cases h1 : s.save_message "user" i m <;> cases h2 : s.save_message "assistant" r m <;>
      rfl

theorem openaiOrLocal_eq_true (a : ClippyAgent) (input : String) (evs : List Ev)
    (hc : (a.config.use_openai && a.config.openai_api_key.isSome) = true) :
    openaiOrLocal a input evs =
      (get_openai_response a input, { a with current_model := "OpenAI" },
        evs ++ [Ev.invokeSecondary]) := by
  simp [openaiOrLocal, hc]

theorem openaiOrLocal_eq_false (a : ClippyAgent) (input : String) (evs : List Ev)
    (hc : ¬ (a.config.use_openai && a.config.openai_api_key.isSome) = true) :
    openaiOrLocal a input evs =
      (LocalAI_get_response input, { a with current_model := "Local" },
        evs ++ [Ev.invokeLocal]) := by
  simp only [openaiOrLocal, if_neg hc]

theorem mem_app_storageEvs (x : Ev) (l : List Ev) (st : Option Storage)
    (i r m : String) (hx : ¬ x = Ev.logStorageError)
    (h : x ∈ l ++ storageEvs st i r m) : x ∈ l := by
  rcases List.mem_append.mp h with h1 | h1
  · exact h1
  · exact absurd (mem_storageEvs st i r m x h1) hx

/-- C1: backends are attempted in descending priority order (the invoked
backends always form a prefix-ordered subsequence of primary, secondary,
local); the secondary is only invoked when it is enabled and its
credential is present; the local rules are never invoked after the
secondary; a successful primary reply is returned immediately with no
other invocation; and with the primary failing and the secondary
enabled-with-credential, the returned text is the secondary reply and the
local rules are never invoked. -/
theorem fallback_order_priority
    (net : GigaChatRequest → Except NetErr GigaChatResponse)
    (a : ClippyAgent) (input : String) (h : ¬ rustTrim input = "") :
    List.Sublist (invocations (get_response net a input).2.2)
      [Ev.invokePrimary, Ev.invokeSecondary, Ev.invokeLocal]
    ∧ (Ev.invokeSecondary ∈ (get_response net a input).2.2 →
        a.config.use_openai = true ∧ a.config.openai_api_key.isSome = true)
    ∧ (Ev.invokeLocal ∈ (get_response net a input).2.2 →
        Ev.invokeSecondary ∉ (get_response net a input).2.2)
    ∧ (∀ (client : GigaChatClient) (reply : String),
        a.gigachat_client = some client →
        (clientGetResponse net client input).1 = .ok reply →
        (get_response net a input).1 = reply ∧
        invocations (get_response net a input).2.2 = [Ev.invokePrimary])
    ∧ (∀ (client : GigaChatClient) (e : GigaErr),
        a.gigachat_client = some client →
        (clientGetResponse net client input).1 = .error e →
        a.config.use_openai = true → a.config.openai_api_key.isSome = true →
        (get_response net a input).1 = get_openai_response a input ∧
        Ev.invokeLocal ∉ (get_response net a input).2.2) := by
  have hev : (get_response net a input).2.2
      = (get_ai_response net a input).2.2 ++ storageEvs a.storage input
        (get_ai_response net a input).1 (get_ai_response net a input).2.1.current_model := by
    rw [get_response_nonempty net a input h]
  have hrep : (get_response net a input).1 = (get_ai_response net a input).1 := by
    rw [get_response_nonempty net a input h]
  refine ⟨?_, ?_, ?_, ?_, ?_⟩
  · rw [hev, invocations_append, invocations_storageEvs, List.append_nil]
    cases hgc : a.gigachat_client with
    | none =>
      rw [gar_eq_none net input a hgc]
      by_cases hc : (a.config.use_openai && a.config.openai_api_key.isSome) = true
      · rw [openaiOrLocal_eq_true a input [] hc]
        exact (by decide :
          List.Sublist [Ev.invokeSecondary]
            [Ev.invokePrimary, Ev.invokeSecondary, Ev.invokeLocal])
      · rw [openaiOrLocal_eq_false a input [] hc]
        exact (by decide :
          List.Sublist [Ev.invokeLocal]
            [Ev.invokePrimary, Ev.invokeSecondary, Ev.invokeLocal])
    | some c =>
      cases hr : (clientGetResponse net c input).1 with
      | ok v =>
        rw [gar_eq_ok net input a c v hgc hr]
        dsimp only
        rcases clientGetResponse_trace net c input with ht | ht <;> rw [ht] <;>
          exact (by decide :
            List.Sublist [Ev.invokePrimary]
              [Ev.invokePrimary, Ev.invokeSecondary, Ev.invokeLocal])
      | error e =>
        rw [gar_eq_err net input a c e hgc hr]
        by_cases hc : (a.config.use_openai && a.config.openai_api_key.isSome) = true
        · rw [openaiOrLocal_eq_true { a with gigachat_client := some (clientGetResponse net c input).2.1 } input (clientGetResponse net c input).2.2 hc]
          dsimp only
          rcases clientGetResponse_trace net c input with ht | ht <;> rw [ht] <;>
            exact (by decide :
              List.Sublist [Ev.invokePrimary, Ev.invokeSecondary]
                [Ev.invokePrimary, Ev.invokeSecondary, Ev.invokeLocal])
        · rw [openaiOrLocal_eq_false { a with gigachat_client := some (clientGetResponse net c input).2.1 } input (clientGetResponse net c input).2.2 hc]
          dsimp only
          rcases clientGetResponse_trace net c input with ht | ht <;> rw [ht] <;>
            exact (by decide :
              List.Sublist [Ev.invokePrimary, Ev.invokeLocal]
                [Ev.invokePrimary, Ev.invokeSecondary, Ev.invokeLocal])
  · intro hmem
    rw [hev] at hmem
    have hmem2 := mem_app_storageEvs _ _ _ _ _ _ (by decide) hmem
    cases hgc : a.gigachat_client with
    | none =>
      rw [gar_eq_none net input a hgc] at hmem2
      by_cases hc : (a.config.use_openai && a.config.openai_api_key.isSome) = true
      · exact Bool.and_eq_true_iff.mp hc
      · rw [openaiOrLocal_eq_false a input [] hc] at hmem2
        simp at hmem2
    | some c =>
      cases hr : (clientGetResponse net c input).1 with
      | ok v =>
        rw [gar_eq_ok net input a c v hgc hr] at hmem2
        dsimp only at hmem2
        rcases clientGetResponse_trace net c input with ht | ht <;> rw [ht] at hmem2 <;>
          simp at hmem2
      | error e =>
        rw [gar_eq_err net input a c e hgc hr] at hmem2
        by_cases hc : (a.config.use_openai && a.config.openai_api_key.isSome) = true
        · exact Bool.and_eq_true_iff.mp hc
        · rw [openaiOrLocal_eq_false { a with gigachat_client := some (clientGetResponse net c input).2.1 } input (clientGetResponse net c input).2.2 hc] at hmem2
          dsimp only at hmem2
          rcases clientGetResponse_trace net c input with ht | ht <;> rw [ht] at hmem2 <;>
            simp at hmem2
  · intro hl hs2
    rw [hev] at hl hs2
    have hl2 := mem_app_storageEvs _ _ _ _ _ _ (by decide) hl
    have hs3 := mem_app_storageEvs _ _ _ _ _ _ (by decide) hs2
    cases hgc : a.gigachat_client with
    | none =>
      rw [gar_eq_none net input a hgc] at hl2 hs3
      by_cases hc : (a.config.use_openai && a.config.openai_api_key.isSome) = true
      · rw [openaiOrLocal_eq_true a input [] hc] at hl2
        simp at hl2
      · rw [openaiOrLocal_eq_false a input [] hc] at hs3
        simp at hs3
    | some c =>
      cases hr : (clientGetResponse net c input).1 with
      | ok v =>
        rw [gar_eq_ok net input a c v hgc hr] at hl2
        dsimp only at hl2
        rcases clientGetResponse_trace net c input with ht | ht <;> rw [ht] at hl2 <;>
          simp at hl2
      | error e =>
        rw [gar_eq_err net input a c e hgc hr] at hl2 hs3
        by_cases hc : (a.config.use_openai && a.config.openai_api_key.isSome) = true
        · rw [openaiOrLocal_eq_true { a with gigachat_client := some (clientGetResponse net c input).2.1 } input (clientGetResponse net c input).2.2 hc] at hl2
          dsimp only at hl2
          rcases clientGetResponse_trace net c input with ht | ht <;> rw [ht] at hl2 <;>
            simp at hl2
        · rw [openaiOrLocal_eq_false { a with gigachat_client := some (clientGetResponse net c input).2.1 } input (clientGetResponse net c input).2.2 hc] at hs3
          dsimp only at hs3
          rcases clientGetResponse_trace net c input with ht | ht <;> rw [ht] at hs3 <;>
            simp at hs3
  · intro client reply hgc hok
    constructor
    · rw [hrep, gar_eq_ok net input a client reply hgc hok]
    · rw [hev, invocations_append, invocations_storageEvs, List.append_nil,
        gar_eq_ok net input a client reply hgc hok]
      dsimp only
      rcases clientGetResponse_trace net client input with ht | ht <;> rw [ht] <;> rfl
  · intro client e hgc herr hu hk
    have hc : (a.config.use_openai && a.config.openai_api_key.isSome) = true := by
      simp [hu, hk]
    constructor
    · rw [hrep, gar_eq_err net input a client e hgc herr,
        openaiOrLocal_eq_true { a with gigachat_client := some (clientGetResponse net client input).2.1 } input (clientGetResponse net client input).2.2 hc]
      rfl
    · intro hmem
      rw [hev] at hmem
      have hmem2 := mem_app_storageEvs _ _ _ _ _ _ (by decide) hmem
      rw [gar_eq_err net input a client e hgc herr,
        openaiOrLocal_eq_true { a with gigachat_client := some (clientGetResponse net client input).2.1 } input (clientGetResponse net client input).2.2 hc] at hmem2
      dsimp only at hmem2
      rcases clientGetResponse_trace net client input with ht | ht <;> rw [ht] at hmem2 <;>
        simp at hmem2

/-- Witness for C1: with a configured primary whose transport fails and
the secondary enabled with a credential, the reply is the secondary reply
and the local rules are never invoked. -/
theorem fallback_order_priority_witness :
    ¬ rustTrim "x" = "" ∧
    (get_response (fun _ => .error .transport)
        (ClippyAgent.new ⟨some "g", "GigaChat:latest", 7/10, 200, true, some "ok"⟩ none)
        "x").1
      = get_openai_response
          (ClippyAgent.new ⟨some "g", "GigaChat:latest", 7/10, 200, true, some "ok"⟩ none)
          "x" ∧
    Ev.invokeLocal ∉
      (get_response (fun _ => .error .transport)
        (ClippyAgent.new ⟨some "g", "GigaChat:latest", 7/10, 200, true, some "ok"⟩ none)
        "x").2.2 := by
  have h := (fallback_order_priority (fun _ => .error .transport)
      (ClippyAgent.new ⟨some "g", "GigaChat:latest", 7/10, 200, true, some "ok"⟩ none) "x"
      (by decide)).2.2.2.2
      (GigaChatClient.new "g" (some "GigaChat:latest") (some (7/10)) (some 200))
      (.net .transport) rfl rfl rfl rfl
  exact ⟨by decide, h.1, h.2⟩

/-! Geometry lemmas and claims. -/

theorem interArea_of_sep_x (a b : Rect)
    (h : min a.max.x b.max.x - max a.min.x b.min.x ≤ 0) : interArea a b = 0 := by
  unfold interArea
  rw [max_eq_left h]
  exact zero_mul _

theorem interArea_of_sep_y (a b : Rect)
    (h : min a.max.y b.max.y - max a.min.y b.min.y ≤ 0) : interArea a b = 0 := by
  unfold interArea
  rw [max_eq_left h]
  exact mul_zero _

theorem finalOverlapFix_area (image : Rect) (gap visW : ℚ) (pl : Bool) (x y visH : ℚ)
    (hg : 0 ≤ gap) :
    interArea ⟨⟨(finalOverlapFix image gap visW pl x y visH).2, y⟩,
      ⟨(finalOverlapFix image gap visW pl x y visH).2 + visW, y + visH⟩⟩ image = 0 := by
  unfold finalOverlapFix
  by_cases hI : (Rect.intersectsB ⟨⟨x, y⟩, ⟨x + visW, y + visH⟩⟩ image) = true
  · rw [if_pos hI]
    cases pl with
    | true =>
      apply interArea_of_sep_x
      simp only [reduceIte]
      have h1 : min (image.max.x + gap + visW) image.max.x ≤ image.max.x :=
        min_le_right _ _
      have h2 : image.max.x + gap ≤ max (image.max.x + gap) image.min.x :=
        le_max_left _ _
      linarith
    | false =>
      apply interArea_of_sep_x
      simp only [Bool.false_eq_true, if_false]
      have h1 : min (image.min.x - gap - visW + visW) image.max.x
          ≤ image.min.x - gap - visW + visW := min_le_left _ _
      have h2 : image.min.x ≤ max (image.min.x - gap - visW) image.min.x :=
        le_max_right _ _
      linarith
  · rw [if_neg hI]
    dsimp only
    simp only [Rect.intersectsB, Bool.and_eq_true, decide_eq_true_eq, not_and_or,
      not_le] at hI
    rcases hI with ((h1 | h2) | h3) | h4
    · apply interArea_of_sep_x
      dsimp only
      have := min_le_right (x + visW) image.max.x
      have := le_max_left x image.min.x
      linarith
    · apply interArea_of_sep_x
      dsimp only
      have := min_le_left (x + visW) image.max.x
      have := le_max_right x image.min.x
      linarith
    · apply interArea_of_sep_y
      dsimp only
      have := min_le_right (y + visH) image.max.y
      have := le_max_left y image.min.y
      linarith
    · apply interArea_of_sep_y
      dsimp only
      have := min_le_left (y + visH) image.max.y
      have := le_max_right y image.min.y
      linarith

/-- C3: whenever the separation gap is nonnegative, the target wrap width
is at least the 120 px floor, and at least one side of the anchor offers
MIN_USABLE_WIDTH + gap of space, the placed panel rectangle has zero
intersection area with the anchor rectangle. -/
theorem layout_non_overlap (screen : Rect) (wrap_w_target : ℚ) (measure : ℚ → ℚ)
    (image_rect : Rect) (max_height_px gap : ℚ) (prefer_left : Bool)
    (hg : 0 ≤ gap) (htgt : 120 ≤ wrap_w_target)
    (hviable : 120 + gap ≤ spaceLeft screen image_rect gap ∨
      120 + gap ≤ spaceRight screen image_rect gap) :
    interArea (show_talk_cloud_side screen wrap_w_target measure image_rect
      max_height_px gap prefer_left).rect image_rect = 0 := by
  unfold show_talk_cloud_side
  dsimp only
  exact finalOverlapFix_area image_rect gap _ _ _ _ _ hg

/-- Witness for C3 at a concrete screen, anchor and text measurement. -/
theorem layout_non_overlap_witness :
    (0:ℚ) ≤ 30 ∧ (120:ℚ) ≤ 200 ∧
    120 + 30 ≤ spaceLeft ⟨⟨0,0⟩,⟨1000,500⟩⟩ ⟨⟨480,200⟩,⟨520,260⟩⟩ 30 ∧
    interArea (show_talk_cloud_side ⟨⟨0,0⟩,⟨1000,500⟩⟩ 200 (fun _ => 50)
      ⟨⟨480,200⟩,⟨520,260⟩⟩ 100 30 true).rect ⟨⟨480,200⟩,⟨520,260⟩⟩ = 0 :=
  ⟨by norm_num, by norm_num, by norm_num [spaceLeft],
    layout_non_overlap ⟨⟨0,0⟩,⟨1000,500⟩⟩ 200 (fun _ => 50) ⟨⟨480,200⟩,⟨520,260⟩⟩
      100 30 true (by norm_num) (by norm_num) (Or.inl (by norm_num [spaceLeft]))⟩

theorem clampY_bounds (screen image : Rect) (visH : ℚ)
    (h5 : visH + 5 ≤ screen.max.y - screen.min.y) :
    screen.min.y ≤ clampYinit screen image visH ∧
    clampYinit screen image visH + visH ≤ screen.max.y := by
  unfold clampYinit
  dsimp only
  split_ifs <;> constructor <;> linarith

/-- C7 counterexample: on a screen of height 10 the clamped panel top ends
up above the screen (the second shift pushes the top to -69), so the
returned rectangle is not vertically contained for every screen. -/
theorem layout_vertical_containment_cex :
    (show_talk_cloud_side ⟨⟨0,0⟩,⟨1000,10⟩⟩ 500 (fun _ => 50)
        ⟨⟨400,2⟩,⟨450,8⟩⟩ 100 20 true).rect.min.y
      < (Rect.mk ⟨0,0⟩ ⟨1000,10⟩).min.y := by
  norm_num [show_talk_cloud_side, spaceLeft, spaceRight, sideWrap, sideInit, wrapOf,
    rustClamp, clampYinit, fixupX, finalOverlapFix, Rect.intersectsB, Rect.centerY]

/-- C7 amended: the panel height is always the pre-clamp visible height
min(text height + padding, cap + padding) — vertical fitting shifts the
panel and never resizes it — and whenever that height plus the 5 px shift
margin fits within the screen height, the returned rectangle is vertically
contained in the screen. -/
theorem layout_vertical_containment_amended (screen : Rect) (wrap_w_target : ℚ)
    (measure : ℚ → ℚ) (image_rect : Rect) (max_height_px gap : ℚ)
    (prefer_left : Bool) :
    ((show_talk_cloud_side screen wrap_w_target measure image_rect max_height_px
        gap prefer_left).rect.max.y
      - (show_talk_cloud_side screen wrap_w_target measure image_rect max_height_px
        gap prefer_left).rect.min.y
      = min (measure (show_talk_cloud_side screen wrap_w_target measure image_rect
          max_height_px gap prefer_left).wrapW + 12 * 2) (max_height_px + 12 * 2))
    ∧ ((show_talk_cloud_side screen wrap_w_target measure image_rect max_height_px
        gap prefer_left).rect.max.y
      - (show_talk_cloud_side screen wrap_w_target measure image_rect max_height_px
        gap prefer_left).rect.min.y + 5 ≤ screen.max.y - screen.min.y →
      screen.min.y ≤ (show_talk_cloud_side screen wrap_w_target measure image_rect
        max_height_px gap prefer_left).rect.min.y ∧
      (show_talk_cloud_side screen wrap_w_target measure image_rect max_height_px
        gap prefer_left).rect.max.y ≤ screen.max.y) := by
  unfold show_talk_cloud_side
  dsimp only
  constructor
  · ring
  · intro h5
    have hb := clampY_bounds screen image_rect
      (min (measure (sideWrap prefer_left (spaceLeft screen image_rect gap)
        (spaceRight screen image_rect gap) gap wrap_w_target).2 + 12 * 2)
        (max_height_px + 12 * 2)) (by linarith)
    exact ⟨hb.1, by linarith [hb.2]⟩

/-- Witness for C7 amended at the scenario geometry of the spec. -/
theorem layout_vertical_containment_witness :
    ((show_talk_cloud_side ⟨⟨0,0⟩,⟨1024,768⟩⟩ 1500 (fun _ => 20)
        ⟨⟨700,500⟩,⟨750,560⟩⟩ 120 20 true).rect.max.y
      - (show_talk_cloud_side ⟨⟨0,0⟩,⟨1024,768⟩⟩ 1500 (fun _ => 20)
        ⟨⟨700,500⟩,⟨750,560⟩⟩ 120 20 true).rect.min.y + 5
      ≤ (768:ℚ) - 0) ∧
    ((0:ℚ) ≤ (show_talk_cloud_side ⟨⟨0,0⟩,⟨1024,768⟩⟩ 1500 (fun _ => 20)
        ⟨⟨700,500⟩,⟨750,560⟩⟩ 120 20 true).rect.min.y ∧
      (show_talk_cloud_side ⟨⟨0,0⟩,⟨1024,768⟩⟩ 1500 (fun _ => 20)
        ⟨⟨700,500⟩,⟨750,560⟩⟩ 120 20 true).rect.max.y ≤ (768:ℚ)) := by
  have hyp : (show_talk_cloud_side ⟨⟨0,0⟩,⟨1024,768⟩⟩ 1500 (fun _ => 20)
        ⟨⟨700,500⟩,⟨750,560⟩⟩ 120 20 true).rect.max.y
      - (show_talk_cloud_side ⟨⟨0,0⟩,⟨1024,768⟩⟩ 1500 (fun _ => 20)
        ⟨⟨700,500⟩,⟨750,560⟩⟩ 120 20 true).rect.min.y + 5 ≤ (768:ℚ) - 0 := by
    norm_num [show_talk_cloud_side, spaceLeft, spaceRight, sideWrap, sideInit, wrapOf,
      rustClamp, clampYinit, fixupX, finalOverlapFix, Rect.intersectsB, Rect.centerY]
  exact ⟨hyp,
    (layout_vertical_containment_amended ⟨⟨0,0⟩,⟨1024,768⟩⟩ 1500 (fun _ => 20)
      ⟨⟨700,500⟩,⟨750,560⟩⟩ 120 20 true).2 hyp⟩

theorem rustClamp_eq_min (x lo hi : ℚ) (hx : lo ≤ x) : rustClamp x lo hi = min x hi := by
  unfold rustClamp
  split_ifs with h1 h2
  · exact absurd h1 (not_lt.mpr hx)
  · exact (min_eq_right (le_of_lt h2)).symm
  · exact (min_eq_left (not_lt.mp h2)).symm

theorem sideWrap_left (sl sr gap target : ℚ) (heq : sl = sr) (hv : 120 + gap ≤ sl)
    (htgt : 120 ≤ target) :
    sideWrap true sl sr gap target = (true, min (sl - gap) target) := by
  have hmin : (120:ℚ) ≤ min (sl - gap) target := le_min (by linarith) htgt
  have h1 : sideInit true sl sr gap = true := by
    unfold sideInit
    simp only [reduceIte, Bool.and_eq_true, Bool.or_eq_true, decide_eq_true_eq]
    exact ⟨by linarith, Or.inl (by linarith)⟩
  unfold sideWrap wrapOf
  dsimp only
  rw [h1]
  simp only [reduceIte]
  rw [rustClamp_eq_min (sl - gap) 120 target (by linarith)]
  rw [if_neg (not_lt.mpr hmin)]
  dsimp only
  rw [if_neg (not_lt.mpr hmin)]

theorem fixupX_id_left (screen image : Rect) (gap visW x0 : ℚ)
    (hx0 : screen.min.x ≤ x0) (hsum : x0 + visW = image.min.x - gap) :
    fixupX screen image gap visW true x0 = (true, x0) := by
  unfold fixupX
  dsimp only
  simp only [reduceIte]
  have hnot : ¬ (x0 + visW > image.min.x - gap) := by
    rw [hsum]
    exact lt_irrefl _
  rw [if_neg hnot]
  rw [if_neg (not_lt.mpr hx0)]

theorem finalOverlapFix_id_left (image : Rect) (gap visW x0 y visH : ℚ)
    (hgap : 0 < gap) (hsum : x0 + visW = image.min.x - gap) :
    finalOverlapFix image gap visW true x0 y visH = (true, x0) := by
  unfold finalOverlapFix
  dsimp only
  have hB : (Rect.intersectsB ⟨⟨x0, y⟩, ⟨x0 + visW, y + visH⟩⟩ image) = false := by
    unfold Rect.intersectsB
    dsimp only
    have hd : decide (image.min.x ≤ x0 + visW) = false := by
      apply decide_eq_false
      rw [hsum]
      intro hle
      linarith
    rw [hd]
    simp
  rw [hB]
  simp

/-- C8 counterexample: anchor centered between equal 460 px spaces with
prefer_left set and gap 10; the panel text wraps at the full left space,
overruns the left screen edge, is shifted to x = 5, then overlaps the
anchor and the final overlap fix flips it to the right side. -/
theorem side_preference_cex :
    spaceLeft ⟨⟨0,0⟩,⟨1000,500⟩⟩ ⟨⟨470,200⟩,⟨530,260⟩⟩ 10
      = spaceRight ⟨⟨0,0⟩,⟨1000,500⟩⟩ ⟨⟨470,200⟩,⟨530,260⟩⟩ 10 ∧
    (show_talk_cloud_side ⟨⟨0,0⟩,⟨1000,500⟩⟩ 2000 (fun _ => 50)
        ⟨⟨470,200⟩,⟨530,260⟩⟩ 100 10 true).placeLeft = false ∧
    (Rect.mk ⟨470,200⟩ ⟨530,260⟩).max.x ≤
      (show_talk_cloud_side ⟨⟨0,0⟩,⟨1000,500⟩⟩ 2000 (fun _ => 50)
        ⟨⟨470,200⟩,⟨530,260⟩⟩ 100 10 true).rect.min.x := by
  refine ⟨by norm_num [spaceLeft, spaceRight], ?_, ?_⟩ <;>
    norm_num [show_talk_cloud_side, spaceLeft, spaceRight, sideWrap, sideInit, wrapOf,
      rustClamp, clampYinit, fixupX, finalOverlapFix, Rect.intersectsB, Rect.centerY]

/-- C8 amended: with equal space on both sides, prefer_left set, a
positive gap, both sides viable (space at least 120 + gap), a target wrap
width of at least 120, and a panel narrow enough to fit in the left space
(computed wrap width plus horizontal padding at most the left space), the
panel is placed on the left, flush at gap distance from the anchor. -/
theorem side_preference_amended (screen : Rect) (wrap_w_target : ℚ)
    (measure : ℚ → ℚ) (image_rect : Rect) (max_height_px gap : ℚ)
    (heq : spaceLeft screen image_rect gap = spaceRight screen image_rect gap)
    (hv : 120 + gap ≤ spaceLeft screen image_rect gap)
    (hgap : 0 < gap)
    (htgt : 120 ≤ wrap_w_target)
    (hfit : min (spaceLeft screen image_rect gap - gap) wrap_w_target + 12 * 2
      ≤ spaceLeft screen image_rect gap) :
    (show_talk_cloud_side screen wrap_w_target measure image_rect max_height_px
      gap true).placeLeft = true ∧
    (show_talk_cloud_side screen wrap_w_target measure image_rect max_height_px
      gap true).rect.max.x = image_rect.min.x - gap := by
  have hraw : image_rect.min.x - screen.min.x - gap = spaceLeft screen image_rect gap := by
    rcases le_or_lt 0 (image_rect.min.x - screen.min.x - gap) with h | h
    · unfold spaceLeft
      exact (max_eq_left h).symm
    · exfalso
      have hz : spaceLeft screen image_rect gap = 0 := by
        unfold spaceLeft
        exact max_eq_right (le_of_lt h)
      rw [hz] at hv
      linarith
  have hsum : image_rect.min.x - gap -
        (min (spaceLeft screen image_rect gap - gap) wrap_w_target + 12 * 2) +
        (min (spaceLeft screen image_rect gap - gap) wrap_w_target + 12 * 2)
      = image_rect.min.x - gap := by ring
  have hx0 : screen.min.x ≤ image_rect.min.x - gap -
      (min (spaceLeft screen image_rect gap - gap) wrap_w_target + 12 * 2) := by
    linarith
  unfold show_talk_cloud_side
  dsimp only
  rw [sideWrap_left _ _ _ _ heq hv htgt]
  dsimp only
  simp only [reduceIte]
  rw [fixupX_id_left screen image_rect gap _ _ hx0 hsum]
  dsimp only
  rw [finalOverlapFix_id_left image_rect gap _ _ _ _ hgap hsum]
  exact ⟨rfl, hsum⟩

/-- Witness for C8 amended at a symmetric concrete layout. -/
theorem side_preference_witness :
    spaceLeft ⟨⟨0,0⟩,⟨1000,500⟩⟩ ⟨⟨480,200⟩,⟨520,260⟩⟩ 30
      = spaceRight ⟨⟨0,0⟩,⟨1000,500⟩⟩ ⟨⟨480,200⟩,⟨520,260⟩⟩ 30 ∧
    (show_talk_cloud_side ⟨⟨0,0⟩,⟨1000,500⟩⟩ 200 (fun _ => 50)
      ⟨⟨480,200⟩,⟨520,260⟩⟩ 100 30 true).placeLeft = true ∧
    (show_talk_cloud_side ⟨⟨0,0⟩,⟨1000,500⟩⟩ 200 (fun _ => 50)
      ⟨⟨480,200⟩,⟨520,260⟩⟩ 100 30 true).rect.max.x
      = (Rect.mk ⟨480,200⟩ ⟨520,260⟩).min.x - 30 := by
  have h := side_preference_amended ⟨⟨0,0⟩,⟨1000,500⟩⟩ 200 (fun _ => 50)
    ⟨⟨480,200⟩,⟨520,260⟩⟩ 100 30
    (by norm_num [spaceLeft, spaceRight]) (by norm_num [spaceLeft])
    (by norm_num) (by norm_num) (by norm_num [spaceLeft])
  exact ⟨by norm_num [spaceLeft, spaceRight], h.1, h.2⟩
